import Mathlib

/-!
Verification of the `plug` utility (src/main.rs): a terminal tool that
enumerates sockets, correlates them with processes, and lets the user kill
or inspect the owning process of a selected port entry.

Shallow embedding conventions:
* `u16`/`u32`/`u64` become `Nat` (no wrapping arithmetic occurs in the code).
* The sysinfo `System` process table and the snapshot process table are both
  modelled as partial maps `Nat → Option Process`.
* Rust `HashMap<K, Vec<usize>>` becomes a function `K → Option (List Nat)`,
  `None` meaning the key is absent; `HashMap::insert`/`get_mut` become
  functional updates.
* Rust `HashSet<u32>` filled by an insertion loop is modelled as a
  duplicate-free list in first-insertion order (`hashSetOfList`); the real
  iteration order is unspecified, so any statement refuted for this order is
  refuted for at least one admissible run of the program.
* `println!` output is collected into a `List String`; values rendered by
  external crates (floats, chrono timestamps, `Debug` of sysinfo structs) are
  carried as pre-rendered string fields of `Process`, since their formatting
  is outside the embedding.
* Functions that issue kill requests additionally return the list of pids for
  which `process.kill()` was invoked, in invocation order; the outcome of
  `kill()` is supplied by an oracle `kill : Nat → Bool`.
-/

/-- Rust `enum ProtocolInfo { TCP, UDP }`. -/
inductive ProtocolInfo
  | TCP
  | UDP
  deriving DecidableEq, Repr

/-- Rust `enum Choices { Kill, ViewDetails }`. -/
inductive Choices
  | Kill
  | ViewDetails
  deriving DecidableEq, Repr

/-- The TCP half of netstat2's `ProtocolSocketInfo::Tcp(tcp)`: only the
`state` field is read (as `tcp.state.to_string()`). -/
structure TcpInfo where
  state : String
  deriving DecidableEq, Repr

/-- netstat2 `ProtocolSocketInfo`: `Tcp(tcp)` or `Udp(_)`. -/
inductive ProtocolSocketInfo
  | Tcp (tcp : TcpInfo)
  | Udp
  deriving DecidableEq, Repr

/-- A netstat2 socket record, with the fields `main` reads:
`local_port()` and `associated_pids`. -/
structure SocketInfo where
  local_port : Nat
  associated_pids : List Nat
  protocol_socket_info : ProtocolSocketInfo
  deriving DecidableEq, Repr

/-- A sysinfo `Process`, with the fields the program reads. Fields whose
rendering depends on external crates (f32 cpu usage, chrono start time,
`Debug` of `cmd`/`DiskUsage`) are carried pre-rendered as strings. -/
structure Process where
  name : String
  memory : Nat
  run_time : Nat
  cpu_display : String
  start_display : String
  cmd_display : String
  disk_usage_display : String
  deriving DecidableEq, Repr

/-- Rust `struct PortInfo`. -/
structure PortInfo where
  port_number : Nat
  pid : Nat
  process_name : String
  protocol : ProtocolInfo
  port_status : String
  deriving DecidableEq, Repr

/-- Default used to model Rust's panicking index `self.port_infos[*index]`
via `List.getD`; the index-soundness invariant shows it is never reached. -/
def defaultPortInfo : PortInfo :=
  { port_number := 0, pid := 0, process_name := "", protocol := ProtocolInfo.TCP,
    port_status := "" }

/-- Rust `struct Manager` (the `system_info : System` handle is passed
separately as a map `Nat → Option Process` where needed). -/
structure Manager where
  port_infos : List PortInfo
  by_port : Nat → Option (List Nat)
  by_process : Nat → Option (List Nat)

/-- `Manager::new()`. -/
def Manager.new : Manager :=
  { port_infos := [], by_port := fun _ => none, by_process := fun _ => none }

/-- Construction of one `PortInfo` in `main`'s correlation loop
(src/main.rs lines 202-213): protocol tag and state from the socket,
name from the resolved process. -/
def mkPortInfo (socket : SocketInfo) (assoc_pid : Nat) (process : Process) :
    PortInfo :=
  let ps := match socket.protocol_socket_info with
    | ProtocolSocketInfo.Tcp tcp => (ProtocolInfo.TCP, tcp.state)
    | ProtocolSocketInfo.Udp => (ProtocolInfo.UDP, "N/A")
  { port_number := socket.local_port
    pid := assoc_pid
    process_name := process.name
    protocol := ps.1
    port_status := ps.2 }

/-- One iteration of the inner loop of `main`'s correlation
(src/main.rs lines 196-232): skip the pid if it does not resolve in `proc`
(`continue`); otherwise push the new entry and record its position `i`
under both indexes, appending to an existing bucket or creating `[i]`. -/
def correlateStep (proc : Nat → Option Process) (socket : SocketInfo)
    (st : Manager × Nat) (assoc_pid : Nat) : Manager × Nat :=
  match proc assoc_pid with
  | none => st
  | some process =>
    let m := st.1
    let i := st.2
    let entry := mkPortInfo socket assoc_pid process
    ({ port_infos := m.port_infos ++ [entry]
       by_port := fun q =>
         if q = socket.local_port then
           some ((match m.by_port socket.local_port with
                  | some l_ind => l_ind
                  | none => []) ++ [i])
         else m.by_port q
       by_process := fun q =>
         if q = assoc_pid then
           some ((match m.by_process assoc_pid with
                  | some p_ind => p_ind
                  | none => []) ++ [i])
         else m.by_process q }, i + 1)

/-- The inner loop of `main`'s correlation: one socket's `associated_pids`
are processed left to right. -/
def correlateSocket (proc : Nat → Option Process) (st : Manager × Nat)
    (socket : SocketInfo) : Manager × Nat :=
  socket.associated_pids.foldl (correlateStep proc socket) st

/-- The correlation loop of `main` (src/main.rs lines 193-233): for every
socket, for every associated pid, run `correlateStep`, threading the
manager and the running position counter `i` (which starts at 0 and is
incremented only for resolving pairs). -/
def correlate (sockets : List SocketInfo) (proc : Nat → Option Process) :
    Manager :=
  (sockets.foldl (correlateSocket proc) (Manager.new, 0)).1

/-- `human_readable_date` (src/main.rs lines 247-259). -/
def human_readable_date (secs : Nat) : String :=
  let days := secs / 86400
  let hours := (secs % 86400) / 3600
  let minutes := (secs % 3600) / 60
  let seconds := secs % 60
  match days, hours, minutes, seconds with
  | 0, 0, 0, s => toString s ++ "s"
  | 0, 0, m, s => toString m ++ "m " ++ toString s ++ "s"
  | 0, h, m, s => toString h ++ "h " ++ toString m ++ "m " ++ toString s ++ "s"
  | d, h, m, s =>
      toString d ++ "d " ++ toString h ++ "h " ++ toString m ++ "m "
        ++ toString s ++ "s"

/-- Result of an action: the lines printed, and the pids for which
`process.kill()` was invoked, in invocation order. -/
structure ActionResult where
  output : List String
  kills : List Nat
  deriving DecidableEq, Repr

/-- `Manager::kill_process_by_pid` (src/main.rs lines 143-151): prints
diagnostics about the process, then calls `process.kill()` and returns its
boolean result. (The quoting that Rust's `{:?}` adds around the external
`OsStr`/`DiskUsage` values is carried inside the pre-rendered fields.) -/
def kill_process_by_pid (kill : Nat → Bool) (pid : Nat) (process : Process) :
    List String × Bool :=
  (["found process to kill:",
    "process: " ++ process.name,
    "process pid: " ++ toString pid,
    "process runtime: " ++ toString process.run_time,
    "process disk usage: " ++ process.disk_usage_display],
   kill pid)

/-- `PortInfo::display_specs` (src/main.rs lines 64-78). -/
def display_specs (info : PortInfo) (proc : Process) : List String :=
  ["in display specs!",
   "Port number: " ++ toString info.port_number,
   "Port status: " ++ info.port_status,
   "Memory Usage: " ++ toString proc.memory ++ " bytes",
   "CPU Usage: " ++ proc.cpu_display ++ "%",
   "Run time: " ++ human_readable_date proc.run_time,
   "Start time: " ++ proc.start_display ++ " UTC",
   "Command: " ++ proc.cmd_display]

/-- `Manager::handle_event` (src/main.rs lines 125-141): re-resolve the
picked entry's pid against the live `system_info`; on a miss, `return`
(no output, no kill). On `Kill`, call `kill_process_by_pid` — its boolean
result is discarded — then print `kill: {name}`. On `ViewDetails`, print
the name and the details. -/
def handle_event (sys : Nat → Option Process) (kill : Nat → Bool)
    (event : Choices) (picked : PortInfo) : ActionResult :=
  match sys picked.pid with
  | none => { output := [], kills := [] }
  | some process =>
    match event with
    | Choices.Kill =>
        { output := (kill_process_by_pid kill picked.pid process).1
            ++ ["kill: " ++ picked.process_name]
          kills := [picked.pid] }
    | Choices.ViewDetails =>
        { output := [picked.process_name] ++ display_specs picked process
          kills := [] }

/-- Models building a Rust `HashSet<Nat>` by inserting the elements of `l`
in order: duplicates are dropped, first insertions keep their position.
(The real `HashSet` iterates in an unspecified order; this fixes one
admissible order.) -/
def hashSetOfList (l : List Nat) : List Nat :=
  l.foldl (fun acc x => if x ∈ acc then acc else acc ++ [x]) []

/-- The per-pid kill loop of `Manager::kill_process_by_port`
(src/main.rs lines 165-175): for each pid, resolve it against the live
`system_info`; on a miss the Rust code executes `return`, abandoning the
whole function (so the remaining pids are never attempted); otherwise call
`kill_process_by_pid` and print a failure line when it returns `false`. -/
def killLoop (sys : Nat → Option Process) (kill : Nat → Bool) :
    List Nat → ActionResult
  | [] => { output := [], kills := [] }
  | pid :: rest =>
    match sys pid with
    | none => { output := [], kills := [] }
    | some process =>
      let kr := kill_process_by_pid kill pid process
      let tail := killLoop sys kill rest
      { output := kr.1
          ++ (if kr.2 then [] else
                ["failed to send kill message for pid: " ++ toString pid])
          ++ tail.output
        kills := pid :: tail.kills }

/-- `Manager::kill_process_by_port` (src/main.rs lines 153-176): look up
the port's bucket in `by_port` (absent ⇒ `return`, a no-op); collect the
owning pids of the bucket's entries into a `HashSet`; run the kill loop
over the distinct pids. -/
def kill_process_by_port (m : Manager) (sys : Nat → Option Process)
    (kill : Nat → Bool) (port : Nat) : ActionResult :=
  match m.by_port port with
  | none => { output := [], kills := [] }
  | some list_of_indexes =>
    let unique_pids :=
      hashSetOfList (list_of_indexes.map
        (fun index => (m.port_infos.getD index defaultPortInfo).pid))
    killLoop sys kill unique_pids

/-- The index/offset soundness invariant maintained by the correlation
loop: the counter equals the number of entries so far, and every position
recorded under a port (resp. pid) bucket points below the counter at an
entry with that port number (resp. owning pid). -/
def IndexInv (m : Manager) (i : Nat) : Prop :=
  m.port_infos.length = i ∧
  (∀ p l_ind, m.by_port p = some l_ind → ∀ j ∈ l_ind,
      j < i ∧ (m.port_infos.getD j defaultPortInfo).port_number = p) ∧
  (∀ q p_ind, m.by_process q = some p_ind → ∀ j ∈ p_ind,
      j < i ∧ (m.port_infos.getD j defaultPortInfo).pid = q)

-- Concrete fixtures used by scenario theorems.

/-- A concrete process value with the given name (the remaining fields are
inert renderings). -/
def mkProc (nm : String) : Process :=
  { name := nm, memory := 0, run_time := 0, cpu_display := "0",
    start_display := "start", cmd_display := "[]",
    disk_usage_display := "DiskUsage" }

def webapp : Process := mkProc "webapp"

def dnsd : Process := mkProc "dnsd"

/-- A live process table in which only pid 100 (webapp) still exists. -/
def sysOnly100 : Nat → Option Process :=
  fun p => if p = 100 then some webapp else none

/-- A live process table with no processes at all. -/
def sysNone : Nat → Option Process := fun _ => none

/-- A snapshot process table with pids 200 (dnsd) and 100 (webapp). -/
def snapProc : Nat → Option Process :=
  fun p => if p = 200 then some dnsd else if p = 100 then some webapp else none

/-- A selected entry: port 8080 owned by pid 100. -/
def pickedEntry : PortInfo :=
  { port_number := 8080, pid := 100, process_name := "webapp",
    protocol := ProtocolInfo.TCP, port_status := "LISTEN" }

/-- One UDP socket on port 53 associated with pids 200 and 100. -/
def socketsShared : List SocketInfo :=
  [{ local_port := 53, associated_pids := [200, 100],
     protocol_socket_info := ProtocolSocketInfo.Udp }]

def mgrShared : Manager := correlate socketsShared snapProc

/-- Three TCP sockets on port 8080: owned by pid 200, pid 100 and pid 100
again, so the port's bucket holds two entries sharing pid 100. -/
def socketsDup : List SocketInfo :=
  [{ local_port := 8080, associated_pids := [200],
     protocol_socket_info := ProtocolSocketInfo.Tcp { state := "LISTEN" } },
   { local_port := 8080, associated_pids := [100],
     protocol_socket_info := ProtocolSocketInfo.Tcp { state := "LISTEN" } },
   { local_port := 8080, associated_pids := [100],
     protocol_socket_info := ProtocolSocketInfo.Tcp { state := "TIME_WAIT" } }]

def mgrDup : Manager := correlate socketsDup snapProc

-- Sanity checks of the embedding on the spec's concrete scenarios (§8).
example :
    (correlate
      [{ local_port := 8080, associated_pids := [100],
         protocol_socket_info := ProtocolSocketInfo.Tcp { state := "LISTEN" } }]
      sysOnly100).port_infos =
    [{ port_number := 8080, pid := 100, process_name := "webapp",
       protocol := ProtocolInfo.TCP, port_status := "LISTEN" }] := by
  decide

example :
    (correlate
      [{ local_port := 53, associated_pids := [200, 201],
         protocol_socket_info := ProtocolSocketInfo.Udp }]
      snapProc).port_infos.map PortInfo.pid = [200] := by
  decide

example : mgrShared.by_port 53 = some [0, 1] := by decide
example : mgrShared.by_process 100 = some [1] := by decide

example : human_readable_date 59 = "59s" := by decide
example : human_readable_date 61 = "1m 1s" := by decide
example : human_readable_date 3661 = "1h 1m 1s" := by decide
example : human_readable_date 90061 = "1d 1h 1m 1s" := by decide

-- Characterization of the entry list produced by the correlation loop.

lemma correlateStep_port_infos (proc : Nat → Option Process)
    (socket : SocketInfo) (st : Manager × Nat) (assoc_pid : Nat) :
    (correlateStep proc socket st assoc_pid).1.port_infos =
      st.1.port_infos ++
        ((proc assoc_pid).map (mkPortInfo socket assoc_pid)).toList := by
  cases h : proc assoc_pid <;> simp [correlateStep, h]

lemma correlateSocket_port_infos (proc : Nat → Option Process)
    (socket : SocketInfo) :
    ∀ (pids : List Nat) (st : Manager × Nat),
      ((pids.foldl (correlateStep proc socket) st).1.port_infos =
        st.1.port_infos ++
          pids.filterMap (fun pid => (proc pid).map (mkPortInfo socket pid)))
  | [], st => by simp
  | pid :: rest, st => by
    rw [List.foldl_cons,
      correlateSocket_port_infos proc socket rest
        (correlateStep proc socket st pid),
      correlateStep_port_infos]
    cases h : proc pid <;> simp [h, List.filterMap_cons]

lemma correlate_fold_port_infos (proc : Nat → Option Process) :
    ∀ (sockets : List SocketInfo) (st : Manager × Nat),
      ((sockets.foldl (correlateSocket proc) st).1.port_infos =
        st.1.port_infos ++
          sockets.flatMap (fun s => s.associated_pids.filterMap
            (fun pid => (proc pid).map (mkPortInfo s pid))))
  | [], st => by simp
  | s :: rest, st => by
    rw [List.foldl_cons, correlate_fold_port_infos proc rest,
      correlateSocket, correlateSocket_port_infos]
    simp

lemma correlate_port_infos_eq (sockets : List SocketInfo)
    (proc : Nat → Option Process) :
    (correlate sockets proc).port_infos =
      sockets.flatMap (fun s => s.associated_pids.filterMap
        (fun pid => (proc pid).map (mkPortInfo s pid))) := by
  rw [correlate, correlate_fold_port_infos]
  rfl

lemma length_filterMap_mkPortInfo (proc : Nat → Option Process)
    (socket : SocketInfo) (pids : List Nat) :
    (pids.filterMap (fun pid => (proc pid).map (mkPortInfo socket pid))).length
      = (pids.filter (fun pid => (proc pid).isSome)).length := by
  induction pids with
  | nil => simp
  | cons p ps ih =>
    cases h : proc p <;>
      simp [List.filterMap_cons, List.filter_cons, h, ih]

lemma mem_correlate_port_infos {sockets : List SocketInfo}
    {proc : Nat → Option Process} {e : PortInfo}
    (he : e ∈ (correlate sockets proc).port_infos) :
    ∃ s ∈ sockets, ∃ pid ∈ s.associated_pids, ∃ process,
      proc pid = some process ∧ e = mkPortInfo s pid process := by
  rw [correlate_port_infos_eq, List.mem_flatMap] at he
  obtain ⟨s, hs, hmem⟩ := he
  rw [List.mem_filterMap] at hmem
  obtain ⟨pid, hpid, hmap⟩ := hmem
  rw [Option.map_eq_some'] at hmap
  obtain ⟨process, hproc, hmk⟩ := hmap
  exact ⟨s, hs, pid, hpid, process, hproc, hmk.symm⟩

-- Preservation of the index/offset soundness invariant.

lemma correlateStep_inv (proc : Nat → Option Process) (socket : SocketInfo)
    (st : Manager × Nat) (assoc_pid : Nat) (h : IndexInv st.1 st.2) :
    IndexInv (correlateStep proc socket st assoc_pid).1
      (correlateStep proc socket st assoc_pid).2 := by
  obtain ⟨hlen, hport, hpid⟩ := h
  cases hp : proc assoc_pid with
  | none => simpa [correlateStep, hp] using ⟨hlen, hport, hpid⟩
  | some process =>
    simp only [correlateStep, hp]
    refine ⟨by simp [hlen], ?_, ?_⟩
    · intro p l_ind hl j hj
      dsimp only at hl ⊢
      by_cases hq : p = socket.local_port
      · subst hq
        rw [if_pos rfl] at hl
        obtain rfl := Option.some.inj hl.symm
        rcases List.mem_append.mp hj with hjold | hjnew
        · have hjb : ∀ l0, st.1.by_port socket.local_port = some l0 → j ∈ l0 →
              j < st.2 + 1 ∧
                ((st.1.port_infos ++ [mkPortInfo socket assoc_pid process]).getD
                  j defaultPortInfo).port_number = socket.local_port := by
            intro l0 hl0 hjl0
            obtain ⟨hlt, hval⟩ := hport socket.local_port l0 hl0 j hjl0
            refine ⟨Nat.lt_succ_of_lt hlt, ?_⟩
            rw [List.getD_append _ _ _ _ (by omega)]
            exact hval
          cases hb : st.1.by_port socket.local_port with
          | none => simp [hb] at hjold
          | some l0 =>
            rw [hb] at hjold
            exact hjb l0 hb hjold
        · obtain rfl := List.mem_singleton.mp hjnew
          refine ⟨Nat.lt_succ_self _, ?_⟩
          rw [List.getD_eq_getElem?_getD, ← hlen,
            List.getElem?_concat_length]
          rfl
      · rw [if_neg hq] at hl
        obtain ⟨hlt, hval⟩ := hport p l_ind hl j hj
        refine ⟨Nat.lt_succ_of_lt hlt, ?_⟩
        rw [List.getD_append _ _ _ _ (by omega)]
        exact hval
    · intro q p_ind hl j hj
      dsimp only at hl ⊢
      by_cases hq : q = assoc_pid
      · subst hq
        rw [if_pos rfl] at hl
        obtain rfl := Option.some.inj hl.symm
        rcases List.mem_append.mp hj with hjold | hjnew
        · have hjb : ∀ l0, st.1.by_process q = some l0 → j ∈ l0 →
              j < st.2 + 1 ∧
                ((st.1.port_infos ++ [mkPortInfo socket q process]).getD
                  j defaultPortInfo).pid = q := by
            intro l0 hl0 hjl0
            obtain ⟨hlt, hval⟩ := hpid q l0 hl0 j hjl0
            refine ⟨Nat.lt_succ_of_lt hlt, ?_⟩
            rw [List.getD_append _ _ _ _ (by omega)]
            exact hval
          cases hb : st.1.by_process q with
          | none => simp [hb] at hjold
          | some l0 =>
            rw [hb] at hjold
            exact hjb l0 hb hjold
        · obtain rfl := List.mem_singleton.mp hjnew
          refine ⟨Nat.lt_succ_self _, ?_⟩
          rw [List.getD_eq_getElem?_getD, ← hlen,
            List.getElem?_concat_length]
          rfl
      · rw [if_neg hq] at hl
        obtain ⟨hlt, hval⟩ := hpid q p_ind hl j hj
        refine ⟨Nat.lt_succ_of_lt hlt, ?_⟩
        rw [List.getD_append _ _ _ _ (by omega)]
        exact hval

lemma correlateSocket_inv (proc : Nat → Option Process) (socket : SocketInfo) :
    ∀ (pids : List Nat) (st : Manager × Nat), IndexInv st.1 st.2 →
      IndexInv (pids.foldl (correlateStep proc socket) st).1
        (pids.foldl (correlateStep proc socket) st).2
  | [], _, h => h
  | pid :: rest, st, h =>
    correlateSocket_inv proc socket rest
      (correlateStep proc socket st pid)
      (correlateStep_inv proc socket st pid h)

lemma correlate_fold_inv (proc : Nat → Option Process) :
    ∀ (sockets : List SocketInfo) (st : Manager × Nat), IndexInv st.1 st.2 →
      IndexInv (sockets.foldl (correlateSocket proc) st).1
        (sockets.foldl (correlateSocket proc) st).2
  | [], _, h => h
  | s :: rest, st, h =>
    correlate_fold_inv proc rest (correlateSocket proc st s)
      (correlateSocket_inv proc s s.associated_pids st h)

lemma indexInv_new : IndexInv Manager.new 0 :=
  ⟨rfl, fun _ _ h => by simp [Manager.new] at h,
    fun _ _ h => by simp [Manager.new] at h⟩

lemma correlate_inv (sockets : List SocketInfo)
    (proc : Nat → Option Process) :
    IndexInv (correlate sockets proc)
      (sockets.foldl (correlateSocket proc) (Manager.new, 0)).2 :=
  correlate_fold_inv proc sockets (Manager.new, 0) indexInv_new

-- Claim theorems.

/-- C1: for every socket table and process table, the correlation loop
produces exactly one entry per (socket, associated-pid) pair whose pid
resolves in the process table: the entry count equals the number of
resolving pairs, unresolvable pairs are silently skipped, and no other
entries exist. -/
theorem correlate_entry_count (sockets : List SocketInfo)
    (proc : Nat → Option Process) :
    (correlate sockets proc).port_infos.length =
      (sockets.map (fun s =>
        (s.associated_pids.filter (fun pid => (proc pid).isSome)).length)).sum := by
  rw [correlate_port_infos_eq]
  induction sockets with
  | nil => rfl
  | cons s rest ih =>
    simp [List.flatMap_cons, ih, length_filterMap_mkPortInfo]

/-- C2: in every produced snapshot, each position stored in a `by_port`
bucket for port `p` is a valid offset into `port_infos` and points at an
entry whose `port_number` is `p`; each position stored in a `by_process`
bucket for pid `q` is a valid offset and points at an entry whose `pid`
is `q`. -/
theorem correlate_index_sound (sockets : List SocketInfo)
    (proc : Nat → Option Process) :
    (∀ p l_ind, (correlate sockets proc).by_port p = some l_ind →
        ∀ j ∈ l_ind, j < (correlate sockets proc).port_infos.length ∧
          ((correlate sockets proc).port_infos.getD j
            defaultPortInfo).port_number = p) ∧
    (∀ q p_ind, (correlate sockets proc).by_process q = some p_ind →
        ∀ j ∈ p_ind, j < (correlate sockets proc).port_infos.length ∧
          ((correlate sockets proc).port_infos.getD j
            defaultPortInfo).pid = q) := by
  obtain ⟨hlen, hport, hpid⟩ := correlate_inv sockets proc
  constructor
  · intro p l_ind hl j hj
    obtain ⟨hlt, hval⟩ := hport p l_ind hl j hj
    exact ⟨by omega, hval⟩
  · intro q p_ind hl j hj
    obtain ⟨hlt, hval⟩ := hpid q p_ind hl j hj
    exact ⟨by omega, hval⟩

/-- Witness for C2 on a concrete snapshot: bucket 8080 of `socketsDup` is
`[0, 1, 2]` and position 1 is a valid offset at an entry with port 8080;
bucket 100 of `by_process` is `[1, 2]` and position 2 points at pid 100. -/
theorem correlate_index_sound_witness :
    ((correlate socketsDup snapProc).by_port 8080 = some [0, 1, 2] ∧
      (1 < (correlate socketsDup snapProc).port_infos.length ∧
        ((correlate socketsDup snapProc).port_infos.getD 1
          defaultPortInfo).port_number = 8080)) ∧
    ((correlate socketsDup snapProc).by_process 100 = some [1, 2] ∧
      (2 < (correlate socketsDup snapProc).port_infos.length ∧
        ((correlate socketsDup snapProc).port_infos.getD 2
          defaultPortInfo).pid = 100)) :=
  ⟨⟨by decide,
    (correlate_index_sound socketsDup snapProc).1 8080 [0, 1, 2] (by decide)
      1 (by decide)⟩,
   ⟨by decide,
    (correlate_index_sound socketsDup snapProc).2 100 [1, 2] (by decide)
      2 (by decide)⟩⟩

/-- C5: every entry produced by the correlation originates from a source
socket; if that socket is TCP the entry carries protocol tag TCP and the
socket's reported state string, and if it is UDP the entry carries
protocol tag UDP and the fixed sentinel state "N/A". -/
theorem correlate_connection_state (sockets : List SocketInfo)
    (proc : Nat → Option Process) (e : PortInfo)
    (he : e ∈ (correlate sockets proc).port_infos) :
    ∃ s ∈ sockets,
      ((∃ tcp, s.protocol_socket_info = ProtocolSocketInfo.Tcp tcp ∧
          e.protocol = ProtocolInfo.TCP ∧ e.port_status = tcp.state) ∨
       (s.protocol_socket_info = ProtocolSocketInfo.Udp ∧
          e.protocol = ProtocolInfo.UDP ∧ e.port_status = "N/A")) := by
  obtain ⟨s, hs, pid, hpid, process, hproc, rfl⟩ := mem_correlate_port_infos he
  refine ⟨s, hs, ?_⟩
  cases hps : s.protocol_socket_info with
  | Tcp tcp =>
    exact Or.inl ⟨tcp, rfl, by simp [mkPortInfo, hps], by simp [mkPortInfo, hps]⟩
  | Udp =>
    exact Or.inr ⟨rfl, by simp [mkPortInfo, hps], by simp [mkPortInfo, hps]⟩

/-- Witness for C5: the dnsd entry of the `socketsShared` snapshot (a UDP
socket) is in the produced list and is certified UDP with state "N/A". -/
theorem correlate_connection_state_witness :
    ({ port_number := 53, pid := 200, process_name := "dnsd",
       protocol := ProtocolInfo.UDP, port_status := "N/A" } : PortInfo)
      ∈ (correlate socketsShared snapProc).port_infos ∧
    ∃ s ∈ socketsShared,
      ((∃ tcp, s.protocol_socket_info = ProtocolSocketInfo.Tcp tcp ∧
          ({ port_number := 53, pid := 200, process_name := "dnsd",
             protocol := ProtocolInfo.UDP, port_status := "N/A" }
            : PortInfo).protocol = ProtocolInfo.TCP ∧
          ({ port_number := 53, pid := 200, process_name := "dnsd",
             protocol := ProtocolInfo.UDP, port_status := "N/A" }
            : PortInfo).port_status = tcp.state) ∨
       (s.protocol_socket_info = ProtocolSocketInfo.Udp ∧
          ({ port_number := 53, pid := 200, process_name := "dnsd",
             protocol := ProtocolInfo.UDP, port_status := "N/A" }
            : PortInfo).protocol = ProtocolInfo.UDP ∧
          ({ port_number := 53, pid := 200, process_name := "dnsd",
             protocol := ProtocolInfo.UDP, port_status := "N/A" }
            : PortInfo).port_status = "N/A")) :=
  ⟨by decide, correlate_connection_state socketsShared snapProc _ (by decide)⟩

/-- C8: the correlated entry list is exactly the in-order flattening of the
(socket, associated-pid) cross product, filtered by pid resolution — so it
preserves the relative order in which sockets, and within a socket its
pids, are presented, is a deterministic function of the two source tables,
and contains no duplicates beyond the cross product. -/
theorem correlate_preserves_source_order (sockets : List SocketInfo)
    (proc : Nat → Option Process) :
    (correlate sockets proc).port_infos =
      sockets.flatMap (fun s => s.associated_pids.filterMap
        (fun pid => (proc pid).map (mkPortInfo s pid))) :=
  correlate_port_infos_eq sockets proc

/-- C3 (failing input): in the `socketsShared` snapshot, port 53 is owned
by the distinct pids 200 and 100; at kill time pid 200 has exited while
pid 100 is still alive and resolvable, yet `kill_process_by_port` issues
no termination request at all — the live-lookup miss on pid 200 executes
`return` (src/main.rs line 168) and abandons the remaining distinct pids
instead of continuing, so the bulk operation short-circuits. -/
theorem kill_by_port_short_circuit :
    mgrShared.by_port 53 = some [0, 1] ∧
    mgrShared.port_infos.map PortInfo.pid = [200, 100] ∧
    sysOnly100 100 = some webapp ∧
    (kill_process_by_port mgrShared sysOnly100 (fun _ => true) 53).kills
      = [] := by
  decide

/-- C6 (failing input): in the `socketsDup` snapshot, the port 8080 bucket
holds three entries whose owning pids are 200, 100, 100 — two entries
share pid 100 — and the distinct targeted set the code computes is
[200, 100]. With pid 200 exited and pid 100 alive, the claim demands
exactly one termination request for pid 100, but the `return` on the
failed live lookup of pid 200 yields zero requests. -/
theorem kill_by_port_dup_pid_zero_requests :
    mgrDup.by_port 8080 = some [0, 1, 2] ∧
    mgrDup.port_infos.map PortInfo.pid = [200, 100, 100] ∧
    hashSetOfList (([0, 1, 2] : List Nat).map
      (fun index => (mgrDup.port_infos.getD index defaultPortInfo).pid))
      = [200, 100] ∧
    sysOnly100 100 = some webapp ∧
    (kill_process_by_port mgrDup sysOnly100 (fun _ => true) 8080).kills
      = [] := by
  decide

/-- C7: kill-by-port on a port absent from `by_port` performs zero
termination requests, prints nothing and raises no error — it is a no-op
(the manager itself is never mutated by this path). -/
theorem kill_by_port_absent_noop (m : Manager) (sys : Nat → Option Process)
    (kill : Nat → Bool) (port : Nat) (h : m.by_port port = none) :
    kill_process_by_port m sys kill port = { output := [], kills := [] } := by
  simp [kill_process_by_port, h]

/-- Witness for C7: port 80 is absent from the `socketsShared` snapshot's
index, and killing by it does nothing. -/
theorem kill_by_port_absent_noop_witness :
    mgrShared.by_port 80 = none ∧
    kill_process_by_port mgrShared sysOnly100 (fun _ => true) 80
      = { output := [], kills := [] } :=
  ⟨by decide,
   kill_by_port_absent_noop mgrShared sysOnly100 (fun _ => true) 80
     (by decide)⟩

/-- C9: when the dispatched entry's pid no longer resolves against the
live process table, `handle_event` returns silently for either action:
no output, no termination request, no error. -/
theorem handle_event_missing_pid_noop (sys : Nat → Option Process)
    (kill : Nat → Bool) (event : Choices) (picked : PortInfo)
    (h : sys picked.pid = none) :
    handle_event sys kill event picked = { output := [], kills := [] } := by
  simp [handle_event, h]

/-- Witness for C9: dispatching Kill for `pickedEntry` against an empty
live process table does nothing. -/
theorem handle_event_missing_pid_noop_witness :
    sysNone pickedEntry.pid = none ∧
    handle_event sysNone (fun _ => true) Choices.Kill pickedEntry
      = { output := [], kills := [] } :=
  ⟨rfl,
   handle_event_missing_pid_noop sysNone (fun _ => true) Choices.Kill
     pickedEntry rfl⟩

/-- C4 (counterexample): with pid 100 alive, the single-entry Kill path
prints exactly the same lines whether the termination call returns `false`
or `true`, and on a `false` result the printed outcome is still the
unconditional success-style message `kill: webapp` with no failure report:
the boolean result of `kill_process_by_pid` is discarded by `handle_event`
(src/main.rs line 133), so the reported outcome does not reflect it. -/
theorem handle_event_kill_ignores_result :
    handle_event sysOnly100 (fun _ => false) Choices.Kill pickedEntry =
      handle_event sysOnly100 (fun _ => true) Choices.Kill pickedEntry ∧
    (handle_event sysOnly100 (fun _ => false) Choices.Kill
        pickedEntry).output =
      ["found process to kill:", "process: webapp", "process pid: 100",
       "process runtime: 0", "process disk usage: DiskUsage",
       "kill: webapp"] := by
  decide

/-- C4 (amended): when the single-entry Kill action is dispatched and the
pid resolves to a live process, the termination call is made and the fixed
message `kill: {name}` is printed after the diagnostic lines, regardless
of the call's boolean result — the result is discarded, no failure is
reported on `false`, and the program is not aborted (the dispatcher
returns normally with the same output for any result). -/
theorem handle_event_kill_fixed_message (sys : Nat → Option Process)
    (killA killB : Nat → Bool) (picked : PortInfo) (process : Process)
    (h : sys picked.pid = some process) :
    handle_event sys killA Choices.Kill picked =
      { output := (kill_process_by_pid killA picked.pid process).1
          ++ ["kill: " ++ picked.process_name]
        kills := [picked.pid] } ∧
    handle_event sys killA Choices.Kill picked =
      handle_event sys killB Choices.Kill picked := by
  constructor <;> simp [handle_event, h, kill_process_by_pid]

/-- Witness for C4 (amended): concrete dispatch of Kill for `pickedEntry`
with a failing and a succeeding termination oracle. -/
theorem handle_event_kill_fixed_message_witness :
    sysOnly100 pickedEntry.pid = some webapp ∧
    (handle_event sysOnly100 (fun _ => false) Choices.Kill pickedEntry =
      { output := (kill_process_by_pid (fun _ => false) pickedEntry.pid
            webapp).1 ++ ["kill: " ++ pickedEntry.process_name]
        kills := [pickedEntry.pid] } ∧
     handle_event sysOnly100 (fun _ => false) Choices.Kill pickedEntry =
       handle_event sysOnly100 (fun _ => true) Choices.Kill pickedEntry) :=
  ⟨by decide,
   handle_event_kill_fixed_message sysOnly100 (fun _ => false)
     (fun _ => true) pickedEntry webapp (by decide)⟩

/-- C10: `human_readable_date` decomposes its input into days, hours,
minutes and seconds satisfying the exact identity with bounded components,
and renders "{s}s" below one minute, "{m}m {s}s" below one hour,
"{h}h {m}m {s}s" below one day, and "{d}d {h}h {m}m {s}s" otherwise. -/
theorem human_readable_date_spec (secs : Nat) :
    (secs / 86400) * 86400 + ((secs % 86400) / 3600) * 3600
        + ((secs % 3600) / 60) * 60 + secs % 60 = secs ∧
    (secs % 86400) / 3600 < 24 ∧ (secs % 3600) / 60 < 60 ∧ secs % 60 < 60 ∧
    human_readable_date secs =
      (if secs < 60 then toString (secs % 60) ++ "s"
       else if secs < 3600 then
         toString ((secs % 3600) / 60) ++ "m " ++ toString (secs % 60) ++ "s"
       else if secs < 86400 then
         toString ((secs % 86400) / 3600) ++ "h "
           ++ toString ((secs % 3600) / 60) ++ "m "
           ++ toString (secs % 60) ++ "s"
       else
         toString (secs / 86400) ++ "d "
           ++ toString ((secs % 86400) / 3600) ++ "h "
           ++ toString ((secs % 3600) / 60) ++ "m "
           ++ toString (secs % 60) ++ "s") := by
  refine ⟨by omega, by omega, by omega, by omega, ?_⟩
  by_cases h1 : secs < 60
  · have hd : secs / 86400 = 0 := by omega
    have hh : (secs % 86400) / 3600 = 0 := by omega
    have hm : (secs % 3600) / 60 = 0 := by omega
    simp only [human_readable_date, hd, hh, hm, if_pos h1]
  · by_cases h2 : secs < 3600
    · have hd : secs / 86400 = 0 := by omega
      have hh : (secs % 86400) / 3600 = 0 := by omega
      obtain ⟨m, hm⟩ : ∃ m, (secs % 3600) / 60 = m + 1 :=
        ⟨(secs % 3600) / 60 - 1, by omega⟩
      simp only [human_readable_date, hd, hh, hm, if_neg h1, if_pos h2]
    · by_cases h3 : secs < 86400
      · have hd : secs / 86400 = 0 := by omega
        obtain ⟨k, hh⟩ : ∃ k, (secs % 86400) / 3600 = k + 1 :=
          ⟨(secs % 86400) / 3600 - 1, by omega⟩
        simp only [human_readable_date, hd, hh, if_neg h1, if_neg h2,
          if_pos h3]
      · obtain ⟨d, hd⟩ : ∃ d, secs / 86400 = d + 1 :=
          ⟨secs / 86400 - 1, by omega⟩
        simp only [human_readable_date, hd, if_neg h1, if_neg h2, if_neg h3]
